import Mathlib

/-!
Shallow embedding of the roster classification and report-layout pipeline of
`src/onDuty.py` (fusonmb/OnDuty): label propagation (`propagate_group`),
duty filtering (`filter_on_duty`), shift assignment (`assign_shift`), and the
row-building core of `create_ouput_spreadsheet`.

Modelling conventions:
* a Python dict row is an association list `Row` of string keys and string
  values in insertion order (the source only ever reads and writes string
  cells in the pipeline stages embedded here);
* `entry.get(k)` is `rowGet`, `entry[k]` is `rowItem` (a `KeyError` becomes
  `Except.error`), `entry[k] = v` is `rowSet`;
* Python `pat in s` on strings is `pyIn` (literal substring containment);
* `sorted` is the stable insertion sort `sortOrd` under the code-point order
  `strLe`, which agrees with Python's stable sort on strings;
* function-local variables of `create_ouput_spreadsheet` that are assigned
  only conditionally (`AMASSrow`, `PMASSrow`, `AMdistrow`, `PMdistrow`) are
  `Option` fields of the loop state, so that reading one that was never
  assigned is the Python `UnboundLocalError`, surfaced as `Except.error`;
* `str.split` is embedded for the single-character separator `"/"` that the
  program uses, and console prints become entries of a `logs` list.
-/

namespace OnDuty

/-- A roster record: one Python dict row, as an association list of string
keys and string values in insertion order. -/
abbrev Row := List (String × String)

/-- Python `entry.get(k)`: the value at the first matching key, if present. -/
def rowGet (r : Row) (k : String) : Option String :=
  match r with
  | [] => none
  | (k', v) :: rest => if k' = k then some v else rowGet rest k

/-- Python `entry.get(k, d)`. -/
def rowGetD (r : Row) (k d : String) : String :=
  (rowGet r k).getD d

/-- Python `entry[k]`: a missing key raises `KeyError`. -/
def rowItem (r : Row) (k : String) : Except String String :=
  match rowGet r k with
  | some v => .ok v
  | none => .error ("KeyError: " ++ k)

/-- Python `entry[k] = v` on a dict: replace the value in place if the key
exists, otherwise append the new key at the end. -/
def rowSet (r : Row) (k v : String) : Row :=
  match r with
  | [] => [(k, v)]
  | (k', v') :: rest => if k' = k then (k, v) :: rest else (k', v') :: rowSet rest k v

/-- Does the pattern begin the character list? -/
def leadsWith : List Char → List Char → Bool
  | [], _ => true
  | _ :: _, [] => false
  | p :: ps, c :: cs => p == c && leadsWith ps cs

/-- Does the pattern occur contiguously anywhere in the character list? -/
def occursIn (p : List Char) : List Char → Bool
  | [] => p.isEmpty
  | c :: cs => leadsWith p (c :: cs) || occursIn p cs

/-- Python `pat in s` on strings: literal substring containment. -/
def pyIn (pat s : String) : Bool :=
  occursIn pat.data s.data

/-- Python lexicographic comparison of strings by code points, as `a <= b`
on the underlying character lists. -/
def charsLe : List Char → List Char → Bool
  | [], _ => true
  | _ :: _, [] => false
  | a :: as, b :: bs => if a < b then true else if b < a then false else charsLe as bs

/-- Python `a <= b` on strings. -/
def strLe (a b : String) : Bool :=
  charsLe a.data b.data

/-- Insert into a sorted list, placing the new element after every element it
ties with, so that the resulting sort is stable like Python `sorted`. -/
def insertOrd (le : α → α → Bool) (a : α) : List α → List α
  | [] => [a]
  | b :: bs => if le b a then b :: insertOrd le a bs else a :: b :: bs

/-- Stable sort, the model of Python `sorted` with a key drawn into `le`. -/
def sortOrd (le : α → α → Bool) (l : List α) : List α :=
  l.foldl (fun acc a => insertOrd le a acc) []

/-- ON_DUTY_CODES of src/onDuty.py lines 27-48, duplicates preserved. -/
def ON_DUTY_CODES : List String :=
  ["EDIEMSEV15EDI", "EMSSHFDIF", "EMSSHFDIFES09", "EMSSHFDIFES33", "STWEP",
   "STWEA", "*STWEP", "*STWEA", "+OTEMS15", "+OOCEDTCPM", "+OOCEDTCAM",
   "EDI15-SE", "+OOCEDTCAMES21", "+OOCEDTCPMES21", "EDIEMSEV15EDI",
   "+EDIEMSEV15EDI", "+OTEMS15-SS", "OTS15", "EMSSHFDIFEMSS01", "+OOCAC"]

/-- GENERIC_ON_DUTY_CODES of lines 49-51. -/
def GENERIC_ON_DUTY_CODES : List String :=
  ["."]

/-- NOT_WORK_CODES of lines 52-78, duplicates preserved. -/
def NOT_WORK_CODES : List String :=
  ["*ESTNWPM", "*ESTNWAM", ".ESTNWAM", ".ESTNWPM", ".HPM", ".HAM",
   ".PFLMPMMaternity", ".PFLMAMMaternity", ".FMLA-AM", ".FMLA-PM", ".PLPM",
   ".PLAM", ".EMS MLAM3", ".EMS MLPM3", ".PLPM", ".PLAM", ".VAM", ".LWOP",
   ".FMLA-AMChild", "+S120PM0.", "+S120PM0.", ".SASC", ".EVPM",
   ".FMLA-AMChild", ".VPM"]

/-- Value of the sole field of a header row (Python `entry[keys[0]]`). -/
def headerVal (r : Row) : String :=
  (r.headD ("", "")).2

/-- Stamp a row with the current label when one has been seen
(lines 187-188: `entry[label_key] = current_label` only if not None). -/
def stampWith (cur : Option String) (r : Row) : Row :=
  match cur with
  | some l => rowSet r "Group" l
  | none => r

/-- Loop of `propagate_group` (lines 173-192), carrying the current label. -/
def propagateGo (cur : Option String) : List Row → List Row
  | [] => []
  | r :: rs =>
    if r.length = 1 then propagateGo (some (headerVal r)) rs
    else stampWith cur r :: propagateGo cur rs

/-- Python `propagate_group(data)` (lines 173-192), label key `"Group"`. -/
def propagate_group (data : List Row) : List Row :=
  propagateGo none data

/-- Value of the most recent header row of a list, or the initial label when
the list holds no header row. Every row with exactly one field is a header. -/
def lastHeaderFrom (cur : Option String) : List Row → Option String
  | [] => cur
  | r :: rs => lastHeaderFrom (if r.length = 1 then some (headerVal r) else cur) rs

/-- Each element of a list paired with the list of elements strictly
preceding it, in order. -/
def withPreceding : List α → List (List α × α)
  | [] => []
  | r :: rs => ([], r) :: (withPreceding rs).map (fun p => (r :: p.1, p.2))

/-- The spec's wording of label propagation, for comparison with the code:
every one-field row is consumed; every other row is emitted, stamped with the
most recent header strictly preceding it (none seen yet: emitted unchanged). -/
def propagateSpecFrom (cur : Option String) (data : List Row) : List Row :=
  (withPreceding data).filterMap fun p =>
    if p.2.length = 1 then none
    else some (stampWith (lastHeaderFrom cur p.1) p.2)

/-- The spec's wording of `propagate_group`, starting with no label seen. -/
def propagateSpec (data : List Row) : List Row :=
  propagateSpecFrom none data

/-- The three duty-code collections passed to `filter_on_duty`. -/
structure DutyCfg where
  allowed : List String
  cancel : List String
  generic : List String

/-- The configuration the program runs with (line 849). -/
def realCfg : DutyCfg :=
  { allowed := ON_DUTY_CODES, cancel := NOT_WORK_CODES, generic := GENERIC_ON_DUTY_CODES }

/-- Inner `is_allowed` of `filter_on_duty` on a present code string
(lines 212-216): exact match against the allowed set, or any generic
substring contained in the code. -/
def isAllowedStr (cfg : DutyCfg) (c : String) : Bool :=
  decide (c ∈ cfg.allowed) || cfg.generic.any (fun g => pyIn g c)

/-- Python `is_allowed(code)` where the code may be `None` (a missing key):
`None in allowed_codes` is `False`, but `any(g in None for g in generics)`
raises `TypeError` as soon as one generic code exists. -/
def isAllowedOpt (cfg : DutyCfg) : Option String → Except String Bool
  | some c => .ok (isAllowedStr cfg c)
  | none =>
    if cfg.generic.isEmpty then .ok false
    else .error "TypeError: argument of type NoneType is not iterable"

/-- The codes `codes_by_name` collects for one name (lines 219-225): codes of
entries whose name equals it, skipping entries with a falsy name or code. -/
def personCodes (data : List Row) (n : String) : List String :=
  data.filterMap fun e =>
    match rowGet e "Name", rowGet e "Code" with
    | some nm, some c => if nm = n ∧ nm ≠ "" ∧ c ≠ "" then some c else none
    | _, _ => none

/-- Membership in `on_duty_names` (lines 227-233): at least one allowed code
and no cancel code among the person's collected codes. -/
def isOnDuty (cfg : DutyCfg) (data : List Row) (n : String) : Bool :=
  (personCodes data n).any (fun c => isAllowedStr cfg c) &&
    !((personCodes data n).any (fun c => decide (c ∈ cfg.cancel)))

/-- Emission loop of `filter_on_duty` (lines 236-243): keep an entry when its
name is on duty and its own code is allowed, where `is_allowed` on a missing
code can raise. -/
def filterEmit (cfg : DutyCfg) (onDuty : String → Bool) : List Row → Except String (List Row)
  | [] => .ok []
  | e :: rest =>
    let keep : Except String Bool :=
      match rowGet e "Name" with
      | some n => if onDuty n then isAllowedOpt cfg (rowGet e "Code") else .ok false
      | none => .ok false
    match keep, filterEmit cfg onDuty rest with
    | .error m, _ => .error m
    | .ok _, .error m => .error m
    | .ok b, .ok res => .ok (if b then e :: res else res)

/-- Python `filter_on_duty(data, allowed, cancel, generic)` (lines 194-243). -/
def filter_on_duty (data : List Row) (cfg : DutyCfg) : Except String (List Row) :=
  filterEmit cfg (isOnDuty cfg data) data

/-- Python `assign_shift(data)` (lines 245-256): `"06:00"` to AM, `"18:00"`
to PM, anything else (a missing From included) to Special. -/
def assign_shift (data : List Row) : List Row :=
  data.map fun e =>
    if rowGet e "From" = some "06:00" then rowSet e "Shift" "AM"
    else if rowGet e "From" = some "18:00" then rowSet e "Shift" "PM"
    else rowSet e "Shift" "Special"

/-- Python `s.split(sep)` for a single-character separator (the program only
splits on `"/"`). -/
def splitChar (sep : Char) : List Char → List (List Char)
  | [] => [[]]
  | c :: rest =>
    match splitChar sep rest with
    | [] => [[c]]
    | h :: t => if c = sep then [] :: h :: t else (c :: h) :: t

/-- Python `s.split("/")`. -/
def strSplitSlash (s : String) : List String :=
  (splitChar '/' s.data).map (fun l => ⟨l⟩)

/-- Python `s.strip()`. -/
def trimChars (s : List Char) : List Char :=
  ((s.dropWhile Char.isWhitespace).reverse.dropWhile Char.isWhitespace).reverse

/-- Python `s.strip()` on strings. -/
def strTrim (s : String) : String :=
  ⟨trimChars s.data⟩

/-- Python `truncate_group_values(data, "/")` (lines 269-286): keep only the
part of each Group after the last separator, stripped, when a separator
occurs. -/
def truncate_group_values (data : List Row) : List Row :=
  data.map fun item =>
    match rowGet item "Group" with
    | some g =>
      let parts := strSplitSlash g
      if parts.length > 1 then rowSet item "Group" (strTrim (parts.getLastD "")) else item
    | none => item

/-- Python `find_unique_lables(data, 'Group')` (lines 258-267): the sorted
list of distinct Group values. -/
def find_unique_lables (data : List Row) (label_key : String) : List String :=
  sortOrd strLe ((data.filterMap (fun e => rowGet e label_key)).dedup)

/-- Python `x.split("/", 1)[-1]` (line 597): everything after the first
slash, or the whole string when none occurs. -/
def splitTailSlash (x : String) : String :=
  match strSplitSlash x with
  | [] => x
  | [a] => a
  | _ :: rest => String.intercalate "/" rest

/-- Python `sort_by_second_string(data)` (lines 288-298): stable sort of the
row lists by the cell at index 1 (despite the name and docstring, the key is
`x[1]`, the second cell). Rows at the call site always have four cells. -/
def sort_by_second_string (data : List (List String)) : List (List String) :=
  sortOrd (fun x y => strLe (x.getD 1 "") (y.getD 1 "")) data

/-- State of the group loop of `create_ouput_spreadsheet` (lines 600-700):
the row collections, the AsstFound flag, the conditionally assigned row
variables (None when still unbound), and the console notes printed so far. -/
structure BState where
  asstRow : List String
  medicRows : List (List String)
  distRows : List (List String)
  specialRows : List (List String)
  travelAMRows : List (List String)
  travelPMRows : List (List String)
  asstFound : Bool
  amAss : Option (List String)
  pmAss : Option (List String)
  amDist : Option (List String)
  pmDist : Option (List String)
  logs : List String
deriving Repr

/-- Loop state at lines 600-606: empty collections, AsstFound false, and the
four conditional row variables still unbound. -/
def initState : BState :=
  { asstRow := [], medicRows := [], distRows := [], specialRows := [],
    travelAMRows := [], travelPMRows := [], asstFound := false,
    amAss := none, pmAss := none, amDist := none, pmDist := none, logs := [] }

/-- Line 609: the records selected for a group, by substring containment of
the group label in each record's Group cell. -/
def entriesFor (data : List Row) (g : String) : List Row :=
  data.filter fun e => pyIn g (rowGetD e "Group" "")

/-- Lines 611-612 and analogues: one shift side of a group's records, by
substring containment in the Shift cell. -/
def shiftSide (side : String) (entries : List Row) : List Row :=
  entries.filter fun e => pyIn side (rowGetD e "Shift" "")

/-- Python `all(item == '' for item in row)`. -/
def allEmpty (l : List String) : Bool :=
  l.all (fun c => c == "")

/-- Medic 5-cell sub-row for one shift side (lines 614-640): shift, group and
up to the first three names; more than three occupants use the first three;
zero occupants give five empty cells. -/
def medicSide (entries : List Row) : Except String (List String) :=
  match entries with
  | [] => .ok ["", "", "", "", ""]
  | e1 :: rest1 =>
    match rowItem e1 "Shift", rowItem e1 "Group", rowItem e1 "Name" with
    | .ok sh, .ok gr, .ok n1 =>
      match rest1 with
      | [] => .ok [sh, gr, n1, "", ""]
      | e2 :: rest2 =>
        match rowItem e2 "Name" with
        | .ok n2 =>
          match rest2 with
          | [] => .ok [sh, gr, n1, n2, ""]
          | e3 :: _ =>
            match rowItem e3 "Name" with
            | .ok n3 => .ok [sh, gr, n1, n2, n3]
            | .error m => .error m
        | .error m => .error m
    | .error m, _, _ => .error m
    | _, .error m, _ => .error m
    | _, _, .error m => .error m

/-- Console notes of the medic branch for one side (lines 615, 622, 625 and
the PM analogues). -/
def medicLog (g side : String) (n : Nat) : List String :=
  if 3 < n then ["More than 3 Employees on " ++ g ++ " " ++ side]
  else if n = 1 then ["Less than 2 Employees on " ++ g ++ " " ++ side]
  else if n = 0 then ["No Employees on " ++ g ++ " " ++ side]
  else []

/-- Assistant sub-row variable update for one side (lines 650-660): assigned
for exactly zero or one occupants, left as it was (possibly still unbound)
for two or more. -/
def assistSide (side : String) (entries : List Row) (old : Option (List String)) :
    Except String (Option (List String)) :=
  match entries with
  | [] => .ok (some [side, "ASST", ""])
  | [e] =>
    match rowItem e "Shift", rowItem e "Name" with
    | .ok sh, .ok nm => .ok (some [sh, "ASST", nm])
    | .error m, _ => .error m
    | _, .error m => .error m
  | _ :: _ :: _ => .ok old

/-- Console note of the assistant branch for one side (lines 653 and 659;
both sides print "PM" in the source). -/
def assistLog (g : String) (n : Nat) : List String :=
  if n = 0 then ["No ASS on Duty " ++ g ++ " PM"] else []

/-- District-chief sub-row variable update for one side (lines 669-679):
assigned for exactly zero or one occupants, left as it was for two or more. -/
def districtSide (entries : List Row) (old : Option (List String)) :
    Except String (Option (List String)) :=
  match entries with
  | [] => .ok (some ["", "", ""])
  | [e] =>
    match rowItem e "Shift", rowItem e "Group", rowItem e "Name" with
    | .ok sh, .ok gr, .ok nm => .ok (some [sh, gr, nm])
    | .error m, _, _ => .error m
    | _, .error m, _ => .error m
    | _, _, .error m => .error m
  | _ :: _ :: _ => .ok old

/-- Console note of the district branch for one side (lines 672 and 678;
both sides print "PM" in the source). -/
def distLog (g : String) (n : Nat) : List String :=
  if n = 0 then ["No Chief on " ++ g ++ " PM"] else []

/-- Per-record rows of the traveler and other branches (lines 683-700):
one `['', From-Through, Group, Name]` row per record, dropping rows whose
cells are all empty. -/
def perRecordRows (entries : List Row) : Except String (List (List String)) :=
  match entries with
  | [] => .ok []
  | e :: rest =>
    match rowItem e "From", rowItem e "Through", rowItem e "Group", rowItem e "Name" with
    | .ok f, .ok t, .ok gr, .ok nm =>
      match perRecordRows rest with
      | .ok rs =>
        let row := ["", f ++ "-" ++ t, gr, nm]
        .ok (if allEmpty row then rs else row :: rs)
      | .error m => .error m
    | .error m, _, _, _ => .error m
    | _, .error m, _, _ => .error m
    | _, _, .error m, _ => .error m
    | _, _, _, .error m => .error m

/-- One iteration of the group loop of `create_ouput_spreadsheet`
(lines 608-700), with its category chain: medic, then on-duty assistant,
then district chief, then the two traveler kinds, then other/special. -/
def processGroup (data : List Row) (g : String) (s : BState) : Except String BState :=
  if pyIn "Medic" g && !(pyIn "73" g) then
    match medicSide (shiftSide "AM" (entriesFor data g)),
        medicSide (shiftSide "PM" (entriesFor data g)) with
    | .ok amRow, .ok pmRow =>
      if allEmpty (amRow ++ pmRow) then
        .ok { s with
              logs := s.logs ++ medicLog g "AM" (shiftSide "AM" (entriesFor data g)).length ++
                medicLog g "PM" (shiftSide "PM" (entriesFor data g)).length }
      else
        .ok { s with
              logs := s.logs ++ medicLog g "AM" (shiftSide "AM" (entriesFor data g)).length ++
                medicLog g "PM" (shiftSide "PM" (entriesFor data g)).length,
              medicRows := s.medicRows ++ [amRow ++ pmRow] }
    | .error m, _ => .error m
    | _, .error m => .error m
  else if pyIn "On-Duty" g then
    match assistSide "AM" (shiftSide "AM" (entriesFor data g)) s.amAss,
        assistSide "PM" (shiftSide "PM" (entriesFor data g)) s.pmAss with
    | .ok amO, .ok pmO =>
      match amO with
      | none => .error "UnboundLocalError: AMASSrow"
      | some am =>
        match pmO with
        | none => .error "UnboundLocalError: PMASSrow"
        | some pm =>
          if allEmpty (am ++ pm) then
            .ok { s with
                  asstFound := true,
                  logs := s.logs ++ assistLog g (shiftSide "AM" (entriesFor data g)).length ++
                    assistLog g (shiftSide "PM" (entriesFor data g)).length,
                  amAss := some am,
                  pmAss := some pm }
          else
            .ok { s with
                  asstFound := true,
                  logs := s.logs ++ assistLog g (shiftSide "AM" (entriesFor data g)).length ++
                    assistLog g (shiftSide "PM" (entriesFor data g)).length,
                  amAss := some am,
                  pmAss := some pm,
                  asstRow := am ++ ["", ""] ++ pm }
    | .error m, _ => .error m
    | _, .error m => .error m
  else if pyIn "District" g && !(pyIn "EMS" g) then
    match districtSide (shiftSide "AM" (entriesFor data g)) s.amDist,
        districtSide (shiftSide "PM" (entriesFor data g)) s.pmDist with
    | .ok amO, .ok pmO =>
      match amO with
      | none => .error "UnboundLocalError: AMdistrow"
      | some am =>
        match pmO with
        | none => .error "UnboundLocalError: PMdistrow"
        | some pm =>
          if allEmpty (am ++ pm) then
            .ok { s with
                  logs := s.logs ++ distLog g (shiftSide "AM" (entriesFor data g)).length ++
                    distLog g (shiftSide "PM" (entriesFor data g)).length,
                  amDist := some am,
                  pmDist := some pm }
          else
            .ok { s with
                  logs := s.logs ++ distLog g (shiftSide "AM" (entriesFor data g)).length ++
                    distLog g (shiftSide "PM" (entriesFor data g)).length,
                  amDist := some am,
                  pmDist := some pm,
                  distRows := s.distRows ++ [am ++ ["", ""] ++ pm] }
    | .error m, _ => .error m
    | _, .error m => .error m
  else if pyIn "Travelers AM" g then
    match perRecordRows (entriesFor data g) with
    | .ok rs => .ok { s with travelAMRows := s.travelAMRows ++ rs }
    | .error m => .error m
  else if pyIn "Travelers PM" g then
    match perRecordRows (entriesFor data g) with
    | .ok rs => .ok { s with travelPMRows := s.travelPMRows ++ rs }
    | .error m => .error m
  else
    match perRecordRows (entriesFor data g) with
    | .ok rs => .ok { s with specialRows := s.specialRows ++ rs }
    | .error m => .error m

/-- The whole group loop (line 608). -/
def buildLoop (data : List Row) (s : BState) : List String → Except String BState
  | [] => .ok s
  | g :: gs =>
    match processGroup data g s with
    | .ok s' => buildLoop data s' gs
    | .error m => .error m

/-- The row collections `create_ouput_spreadsheet` hands to the sheet
writer, and the console notes. -/
structure Built where
  asstRow : List String
  medicRows : List (List String)
  distRows : List (List String)
  travelAMRows : List (List String)
  travelPMRows : List (List String)
  specialRows : List (List String)
  logs : List String
deriving Repr

/-- Lines 596-597: the distinct truncated labels, sorted again by their
after-slash tail (a defensive re-sort in the source). -/
def sortedLabelsOf (data : List Row) : List String :=
  sortOrd (fun a b => strLe (splitTailSlash a) (splitTailSlash b))
    (find_unique_lables data "Group")

/-- Lines 702-710 after the loop: fall back to the default assistant
placeholder when no assistant group was found, and sort the other/special
rows by their second cell. -/
def finishBuild (s : BState) : Built :=
  { asstRow := if s.asstFound then s.asstRow else ["AM", "ASST", "", "", "", "PM", "ASST", ""],
    medicRows := s.medicRows, distRows := s.distRows,
    travelAMRows := s.travelAMRows, travelPMRows := s.travelPMRows,
    specialRows := sort_by_second_string s.specialRows,
    logs := if s.asstFound then s.logs else s.logs ++ ["No ASSes on Duty"] }

/-- Row-collection core of `create_ouput_spreadsheet` (lines 592-710):
truncate the Group cells, enumerate the distinct labels sorted by their
after-slash tail, run the category loop, then finish. -/
def create_ouput_rows (data0 : List Row) : Except String Built :=
  match buildLoop (truncate_group_values data0) initState
      (sortedLabelsOf (truncate_group_values data0)) with
  | .error m => .error m
  | .ok s => .ok (finishBuild s)

/-- The core pipeline of `main` (lines 848-853): label propagation, duty
filtering, shift assignment, row building. -/
def pipeline (cfg : DutyCfg) (rows : List Row) : Except String Built :=
  match filter_on_duty (propagate_group rows) cfg with
  | .ok f => create_ouput_rows (assign_shift f)
  | .error m => .error m

/-- A well-formed record at the row-building stage: it carries the Group,
Shift, Name, From and Through fields. -/
def wellFormedB (r : Row) : Bool :=
  (rowGet r "Group").isSome && (rowGet r "Shift").isSome && (rowGet r "Name").isSome &&
    (rowGet r "From").isSome && (rowGet r "Through").isSome

/-- The five fields the medic branch reads. -/
def medicFieldsB (r : Row) : Bool :=
  (rowGet r "Shift").isSome && (rowGet r "Group").isSome && (rowGet r "Name").isSome

/-- The spec's padding rule: the first three names, padded to three cells
with empty strings when fewer are present. -/
def padTo3 (l : List String) : List String :=
  l.take 3 ++ List.replicate (3 - l.length) ""

/-- The spec's wording of the medic sub-row for one shift side: shift and
group of the subset, then its names clamped and padded to three cells; five
empty cells for an empty subset. -/
def medicSideSpec (entries : List Row) : List String :=
  match entries with
  | [] => ["", "", "", "", ""]
  | e :: _ =>
    rowGetD e "Shift" "" :: rowGetD e "Group" "" ::
      padTo3 (entries.map (fun r => rowGetD r "Name" ""))

/-! Basic lemmas about the string and row primitives. -/

theorem leadsWith_iff (p : List Char) : ∀ s : List Char,
    leadsWith p s = true ↔ ∃ t, p ++ t = s := by
  induction p with
  | nil =>
    intro s
    simp [leadsWith]
  | cons x xs ih =>
    intro s
    cases s with
    | nil =>
      simp [leadsWith]
    | cons c cs =>
      simp only [leadsWith, Bool.and_eq_true, beq_iff_eq, ih cs, List.cons_append,
        List.cons.injEq]
      constructor
      · rintro ⟨hx, t, ht⟩
        exact ⟨t, hx, ht⟩
      · rintro ⟨t, hx, ht⟩
        exact ⟨hx, t, ht⟩

theorem occursIn_iff (p : List Char) : ∀ s : List Char,
    occursIn p s = true ↔ ∃ l t, l ++ p ++ t = s := by
  intro s
  induction s with
  | nil =>
    simp only [occursIn, List.isEmpty_iff]
    constructor
    · intro h
      exact ⟨[], [], by simp [h]⟩
    · rintro ⟨l, t, h⟩
      rcases List.append_eq_nil.mp h with ⟨h1, h2⟩
      exact (List.append_eq_nil.mp h1).2
  | cons c cs ih =>
    simp only [occursIn, Bool.or_eq_true, leadsWith_iff, ih]
    constructor
    · rintro (⟨t, ht⟩ | ⟨l, t, ht⟩)
      · exact ⟨[], t, by simp [ht]⟩
      · exact ⟨c :: l, t, by simp [ht]⟩
    · rintro ⟨l, t, ht⟩
      cases l with
      | nil =>
        exact Or.inl ⟨t, by simpa using ht⟩
      | cons l0 ls =>
        rcases List.cons.injEq .. ▸ ht with ⟨h0, hrest⟩
        exact Or.inr ⟨ls, t, by simpa using hrest⟩

theorem pyIn_iff (pat s : String) :
    pyIn pat s = true ↔ ∃ l t, l ++ pat.data ++ t = s.data :=
  occursIn_iff pat.data s.data

theorem string_eq_empty_of_data {s : String} (h : s.data = []) : s = "" := by
  cases s
  simp_all

theorem pyIn_empty_right {pat : String} (h : pat ≠ "") : pyIn pat "" = false := by
  have hd : pat.data ≠ [] := fun hc => h (string_eq_empty_of_data hc)
  simp only [pyIn]
  show occursIn pat.data [] = false
  simp [occursIn, List.isEmpty_iff, hd]

theorem rowGet_rowSet_self (r : Row) (k v : String) :
    rowGet (rowSet r k v) k = some v := by
  induction r with
  | nil => simp [rowSet, rowGet]
  | cons p rest ih =>
    by_cases h : p.1 = k
    · simp [rowSet, rowGet, h]
    · simp [rowSet, rowGet, h, ih]

theorem rowGet_rowSet_ne (r : Row) (k v k' : String) (h : k' ≠ k) :
    rowGet (rowSet r k v) k' = rowGet r k' := by
  induction r with
  | nil => simp [rowSet, rowGet, Ne.symm h]
  | cons p rest ih =>
    by_cases hp : p.1 = k
    · subst hp
      simp [rowSet, rowGet, Ne.symm h]
    · simp [rowSet, rowGet, hp, ih]

theorem rowItem_ok {r : Row} {k : String} (h : (rowGet r k).isSome = true) :
    rowItem r k = .ok ((rowGet r k).getD "") := by
  cases hg : rowGet r k with
  | none => rw [hg] at h; cases h
  | some v => simp [rowItem, hg]

/-! Lemmas about the stable sort `sortOrd`. -/

theorem mem_insertOrd (le : α → α → Bool) (a x : α) : ∀ l : List α,
    x ∈ insertOrd le a l ↔ x = a ∨ x ∈ l := by
  intro l
  induction l with
  | nil => simp [insertOrd]
  | cons b t ih =>
    by_cases h : le b a = true
    · simp only [insertOrd, if_pos h, List.mem_cons, ih]
      tauto
    · simp only [insertOrd, if_neg h, List.mem_cons]

theorem pairwise_insertOrd (le : α → α → Bool)
    (total : ∀ a b, le a b = true ∨ le b a = true)
    (trans : ∀ a b c, le a b = true → le b c = true → le a c = true)
    (a : α) : ∀ l : List α, l.Pairwise (fun x y => le x y = true) →
      (insertOrd le a l).Pairwise (fun x y => le x y = true) := by
  intro l
  induction l with
  | nil =>
    intro _
    simp [insertOrd]
  | cons b t ih =>
    intro h
    rcases List.pairwise_cons.mp h with ⟨hb, ht⟩
    by_cases hba : le b a = true
    · rw [insertOrd, if_pos hba]
      refine List.pairwise_cons.mpr ⟨?_, ih ht⟩
      intro x hx
      rcases (mem_insertOrd le a x t).mp hx with hxa | hxt
      · exact hxa ▸ hba
      · exact hb x hxt
    · rw [insertOrd, if_neg hba]
      have hab : le a b = true := (total a b).resolve_right (fun hc => hba hc)
      refine List.pairwise_cons.mpr ⟨?_, h⟩
      intro x hx
      rcases List.mem_cons.mp hx with hxb | hxt
      · exact hxb ▸ hab
      · exact trans a b x hab (hb x hxt)

theorem pairwise_sortOrd_go (le : α → α → Bool)
    (total : ∀ a b, le a b = true ∨ le b a = true)
    (trans : ∀ a b c, le a b = true → le b c = true → le a c = true) :
    ∀ (l acc : List α), acc.Pairwise (fun x y => le x y = true) →
      (l.foldl (fun acc a => insertOrd le a acc) acc).Pairwise (fun x y => le x y = true) := by
  intro l
  induction l with
  | nil =>
    intro acc h
    simpa using h
  | cons a t ih =>
    intro acc h
    exact ih (insertOrd le a acc) (pairwise_insertOrd le total trans a acc h)

theorem pairwise_sortOrd (le : α → α → Bool)
    (total : ∀ a b, le a b = true ∨ le b a = true)
    (trans : ∀ a b c, le a b = true → le b c = true → le a c = true)
    (l : List α) : (sortOrd le l).Pairwise (fun x y => le x y = true) :=
  pairwise_sortOrd_go le total trans l [] (by simp)

theorem mem_sortOrd_go (le : α → α → Bool) (x : α) :
    ∀ (l acc : List α), x ∈ l.foldl (fun acc a => insertOrd le a acc) acc ↔ x ∈ acc ∨ x ∈ l := by
  intro l
  induction l with
  | nil =>
    intro acc
    simp
  | cons a t ih =>
    intro acc
    rw [List.foldl_cons, ih, mem_insertOrd]
    simp
    tauto

theorem mem_sortOrd (le : α → α → Bool) (x : α) (l : List α) :
    x ∈ sortOrd le l ↔ x ∈ l := by
  rw [sortOrd, mem_sortOrd_go]
  simp

theorem charsLe_total : ∀ a b : List Char, charsLe a b = true ∨ charsLe b a = true := by
  intro a
  induction a with
  | nil =>
    intro b
    left
    rfl
  | cons x xs ih =>
    intro b
    cases b with
    | nil =>
      right
      rfl
    | cons y ys =>
      by_cases hxy : x < y
      · left
        simp [charsLe, hxy]
      · by_cases hyx : y < x
        · right
          simp [charsLe, hyx]
        · rcases ih ys with h | h
          · left
            simpa [charsLe, hxy, hyx] using h
          · right
            simpa [charsLe, hyx, hxy] using h

theorem charsLe_trans : ∀ a b c : List Char,
    charsLe a b = true → charsLe b c = true → charsLe a c = true := by
  intro a
  induction a with
  | nil =>
    intro b c _ _
    rfl
  | cons x xs ih =>
    intro b c hab hbc
    cases b with
    | nil => simp [charsLe] at hab
    | cons y ys =>
      cases c with
      | nil => simp [charsLe] at hbc
      | cons z zs =>
        by_cases hxy : x < y
        · by_cases hyz : y < z
          · simp [charsLe, lt_trans hxy hyz]
          · by_cases hzy : z < y
            · simp [charsLe, hyz, hzy] at hbc
            · have : y = z := le_antisymm (le_of_not_lt hzy) (le_of_not_lt hyz)
              subst this
              simp [charsLe, hxy]
        · by_cases hyx : y < x
          · simp [charsLe, hxy, hyx] at hab
          · have hxyeq : x = y := le_antisymm (le_of_not_lt hyx) (le_of_not_lt hxy)
            subst hxyeq
            by_cases hyz : x < z
            · simp [charsLe, hyz]
            · by_cases hzy : z < x
              · simp [charsLe, hyz, hzy] at hbc
              · have hrec : charsLe xs ys = true := by simpa [charsLe, hxy, hyx] using hab
                have hrec2 : charsLe ys zs = true := by simpa [charsLe, hyz, hzy] using hbc
                simpa [charsLe, hyz, hzy] using ih ys zs hrec hrec2

theorem strLe_total (a b : String) : strLe a b = true ∨ strLe b a = true :=
  charsLe_total a.data b.data

theorem strLe_trans (a b c : String) :
    strLe a b = true → strLe b c = true → strLe a c = true :=
  charsLe_trans a.data b.data c.data

/-! Label propagation agrees with the spec's indexed description. -/

theorem propagateGo_eq_specFrom (data : List Row) : ∀ cur : Option String,
    propagateGo cur data = propagateSpecFrom cur data := by
  induction data with
  | nil =>
    intro cur
    rfl
  | cons r rs ih =>
    intro cur
    by_cases h : r.length = 1
    · rw [propagateGo, if_pos h]
      rw [propagateSpecFrom, withPreceding, List.filterMap_cons]
      simp only [h, if_pos rfl, List.filterMap_map]
      rw [ih (some (headerVal r))]
      rw [propagateSpecFrom]
      apply List.filterMap_congr
      intro p _
      simp only [Function.comp]
      rw [show lastHeaderFrom cur (r :: p.1) =
        lastHeaderFrom (if r.length = 1 then some (headerVal r) else cur) p.1 from rfl]
      rw [if_pos h]
    · rw [propagateGo, if_neg h]
      rw [propagateSpecFrom, withPreceding, List.filterMap_cons]
      simp only [h, if_neg h, List.filterMap_map]
      rw [show lastHeaderFrom cur ([] : List Row) = cur from rfl]
      rw [ih cur]
      rw [propagateSpecFrom]
      congr 1
      apply List.filterMap_congr
      intro p _
      simp only [Function.comp]
      rw [show lastHeaderFrom cur (r :: p.1) =
        lastHeaderFrom (if r.length = 1 then some (headerVal r) else cur) p.1 from rfl]
      rw [if_neg h]

/-! The duty classifier's emission loop only emits entries of on-duty names. -/

theorem filterEmit_names (cfg : DutyCfg) (p : String → Bool) :
    ∀ (data res : List Row), filterEmit cfg p data = .ok res →
      ∀ e ∈ res, ∃ n, rowGet e "Name" = some n ∧ p n = true := by
  intro data
  induction data with
  | nil =>
    intro res h e he
    rw [filterEmit] at h
    cases h
    cases he
  | cons e0 rest ih =>
    intro res h e he
    rw [filterEmit] at h
    cases hn : rowGet e0 "Name" with
    | none =>
      rw [hn] at h
      cases hr : filterEmit cfg p rest with
      | error m => rw [hr] at h; cases h
      | ok res' =>
        rw [hr] at h
        cases h
        exact ih res' hr e he
    | some n =>
      simp only [hn] at h
      by_cases hp : p n = true
      · rw [if_pos hp] at h
        cases hcode : isAllowedOpt cfg (rowGet e0 "Code") with
        | error m => rw [hcode] at h; cases h
        | ok b =>
          rw [hcode] at h
          cases hr : filterEmit cfg p rest with
          | error m => rw [hr] at h; cases h
          | ok res' =>
            rw [hr] at h
            cases h
            by_cases hb : b = true
            · rw [if_pos hb] at he
              rcases List.mem_cons.mp he with he0 | he'
              · exact ⟨n, he0 ▸ hn, hp⟩
              · exact ih res' hr e he'
            · rw [if_neg hb] at he
              exact ih res' hr e he
      · rw [if_neg hp] at h
        cases hr : filterEmit cfg p rest with
        | error m => rw [hr] at h; cases h
        | ok res' =>
          rw [hr] at h
          cases h
          exact ih res' hr e he

/-- Destructor for a successful run of the row builder. -/
theorem create_ouput_rows_ok {data : List Row} {b : Built}
    (hok : create_ouput_rows data = .ok b) :
    ∃ s, buildLoop (truncate_group_values data) initState
        (sortedLabelsOf (truncate_group_values data)) = .ok s ∧ b = finishBuild s := by
  revert hok
  cases hb : buildLoop (truncate_group_values data) initState
      (sortedLabelsOf (truncate_group_values data)) with
  | error m =>
    intro hok
    rw [create_ouput_rows, hb] at hok
    cases hok
  | ok s =>
    intro hok
    rw [create_ouput_rows, hb] at hok
    injection hok with h
    exact ⟨s, rfl, h.symm⟩

/-! Claim theorems. -/

/-- C2 counterexample: a concrete builder input whose emitted other/special
rows come out ordered by the times cell, namely `["Bob", "Alice"]` by name,
which is not lexicographic name order. -/
def c2data : List Row :=
  [[("Name", "Alice"), ("From", "09:00"), ("Through", "10:00"), ("Group", "Aed"),
    ("Shift", "Special"), ("Code", "x")],
   [("Name", "Bob"), ("From", "07:00"), ("Through", "08:00"), ("Group", "Bed"),
    ("Shift", "Special"), ("Code", "x")]]

/-- C2 (counterexample): on `c2data` the emitted other/special rows carry the
names `["Bob", "Alice"]` in that order, and `"Bob"` does not precede
`"Alice"` lexicographically, so the other/special row sequence is not ordered
by the displayed name cell. -/
theorem C2_counterexample :
    (create_ouput_rows c2data).toOption.map
        (fun b => b.specialRows.map (fun r => r.getD 3 "")) = some ["Bob", "Alice"] ∧
      strLe "Bob" "Alice" = false :=
  ⟨rfl, rfl⟩

/-- C2 (amended): for every input on which the row builder succeeds, the
emitted other/special rows are sorted lexicographically by the cell at index
1 — the `From-Through` times cell — not by the name cell. -/
theorem C2_special_sorted_by_times (data : List Row) (b : Built)
    (hok : create_ouput_rows data = .ok b) :
    b.specialRows.Pairwise (fun x y => strLe (x.getD 1 "") (y.getD 1 "") = true) := by
  rcases create_ouput_rows_ok hok with ⟨s, _, hb⟩
  rw [hb]
  show (sort_by_second_string s.specialRows).Pairwise _
  rw [sort_by_second_string]
  exact pairwise_sortOrd (fun x y : List String => strLe (x.getD 1 "") (y.getD 1 ""))
    (fun x y => strLe_total (x.getD 1 "") (y.getD 1 ""))
    (fun x y z => strLe_trans (x.getD 1 "") (y.getD 1 "") (z.getD 1 "")) s.specialRows

/-- The concrete builder output on `c2data`. -/
def wb2 : Built :=
  { asstRow := ["AM", "ASST", "", "", "", "PM", "ASST", ""],
    medicRows := [], distRows := [], travelAMRows := [], travelPMRows := [],
    specialRows := [["", "07:00-08:00", "Bed", "Bob"], ["", "09:00-10:00", "Aed", "Alice"]],
    logs := ["No ASSes on Duty"] }

/-- C2 (amended, witness): the sortedness of the other/special rows holds on
the concrete run over `c2data`. -/
theorem C2_special_sorted_by_times_witness :
    wb2.specialRows.Pairwise (fun x y => strLe (x.getD 1 "") (y.getD 1 "") = true) :=
  C2_special_sorted_by_times c2data wb2 rfl

/-- C4: for every input record sequence and configuration, a person one of
whose collected codes exact-matches the disqualifying set has none of their
records in the duty classifier's output (when the classifier returns). -/
theorem C4_duty_veto (cfg : DutyCfg) (data : List Row) (n : String) (res : List Row)
    (hres : filter_on_duty data cfg = .ok res)
    (hcancel : (personCodes data n).any (fun c => decide (c ∈ cfg.cancel)) = true) :
    res.all (fun e => !(rowGet e "Name" == some n)) = true := by
  rw [List.all_eq_true]
  intro e he
  rcases filterEmit_names cfg (isOnDuty cfg data) data res hres e he with ⟨n', hn', hp⟩
  have hoff : isOnDuty cfg data n = false := by
    rw [isOnDuty, hcancel]
    simp
  rw [Bool.not_eq_true', beq_eq_false_iff_ne]
  intro hcontra
  rw [hcontra] at hn'
  have hnn : n' = n := by
    injection hn' with h
    exact h.symm
  rw [hnn, hoff] at hp
  cases hp

/-- C4 witness input: person A holds one allowed and one disqualifying code,
person B only the allowed one. -/
def wd4 : List Row :=
  [[("Name", "A"), ("Code", "STWEP")],
   [("Name", "A"), ("Code", "*ESTNWAM")],
   [("Name", "B"), ("Code", "STWEP")]]

/-- C4 (witness): on `wd4` with the program's code lists, the classifier's
output (exactly person B's record) holds no record of person A. -/
theorem C4_duty_veto_witness :
    ([[("Name", "B"), ("Code", "STWEP")]] : List Row).all
      (fun e => !(rowGet e "Name" == some "A")) = true :=
  C4_duty_veto realCfg wd4 "A" [[("Name", "B"), ("Code", "STWEP")]] rfl rfl

/-- C5: the duty classifier treats a code as allowed exactly when it
exact-matches the allowed list or contains some configured generic string as
a literal substring; in particular a generic-substring match suffices
without any exact match. -/
theorem C5_generic_matching (cfg : DutyCfg) (c : String) :
    isAllowedStr cfg c = true ↔
      c ∈ cfg.allowed ∨ ∃ g ∈ cfg.generic, ∃ l t, l ++ g.data ++ t = c.data := by
  simp only [isAllowedStr, Bool.or_eq_true, decide_eq_true_eq, List.any_eq_true, pyIn_iff]

/-- C6 input: person A's first record qualifies them as on-duty; their second
record carries no Code field at all. -/
def c6data : List Row :=
  [[("Name", "A"), ("Code", "STWEP")],
   [("Name", "A"), ("From", "06:00")]]

/-- C6: a record with a missing code whose name is on duty makes the duty
classifier raise (Python `TypeError` from `g in None` inside `is_allowed`)
instead of silently excluding the record. -/
theorem C6_missing_code_typeerror :
    filter_on_duty c6data realCfg =
      .error "TypeError: argument of type NoneType is not iterable" :=
  rfl

/-- C7: label propagation equals its indexed specification — one-field rows
are consumed as headers, every emitted row is stamped with the most recent
header strictly preceding it, and rows before any header stay unstamped —
and every record the row builder selects for a nonempty group label carries
a Group field, so unstamped records are excluded from category output. -/
theorem C7_label_propagation (data : List Row) (g : String) (hg : g ≠ "") :
    propagate_group data = propagateSpec data ∧
    (entriesFor data g).all (fun r => (rowGet r "Group").isSome) = true := by
  constructor
  · exact propagateGo_eq_specFrom data none
  · rw [List.all_eq_true]
    intro r hr
    rcases List.mem_filter.mp hr with ⟨_, hpy⟩
    cases hG : rowGet r "Group" with
    | some v => simp [hG]
    | none =>
      exfalso
      rw [rowGetD, hG, Option.getD_none, pyIn_empty_right hg] at hpy
      cases hpy

/-- C7 witness input: one record before the header, one header, one record
after it. -/
def wd7 : List Row :=
  [[("Name", "pre"), ("Code", "x")],
   [("U", "G1")],
   [("Name", "post"), ("Code", "y")]]

/-- C7 (witness): the propagation equality and the exclusion of unstamped
records hold on the concrete sequence `wd7` and label `"G1"`. -/
theorem C7_label_propagation_witness :
    propagate_group wd7 = propagateSpec wd7 ∧
    (entriesFor wd7 "G1").all (fun r => (rowGet r "Group").isSome) = true :=
  C7_label_propagation wd7 "G1" (by decide)

/-- C9: the core pipeline — label propagation, duty filtering, shift
assignment, row building — is deterministic: equal inputs under the same
configuration produce identical row collections. -/
theorem C9_pipeline_deterministic (cfg : DutyCfg) (d1 d2 : List Row) (h : d1 = d2) :
    pipeline cfg d1 = pipeline cfg d2 := by
  rw [h]

/-- C9 witness input: a header and two medic records. -/
def wd9 : List Row :=
  [[("Name", "Medic 10")],
   [("Name", "A"), ("Code", "STWEP"), ("From", "06:00"), ("Through", "18:00")],
   [("Name", "B"), ("Code", "STWEP"), ("From", "06:00"), ("Through", "18:00")]]

/-- C9 (witness): determinism of the pipeline at the concrete input `wd9`. -/
theorem C9_pipeline_deterministic_witness :
    pipeline realCfg wd9 = pipeline realCfg wd9 :=
  C9_pipeline_deterministic realCfg wd9 wd9 rfl

/-- C10: the row builder selects a group's records by substring containment —
every record whose Group cell contains the group label as a substring is
among the entries used to build that label's rows. -/
theorem C10_group_substring (data : List Row) (g : String) (r : Row)
    (hr : r ∈ data) (hsub : ∃ l t, l ++ g.data ++ t = (rowGetD r "Group" "").data) :
    r ∈ entriesFor data g :=
  List.mem_filter.mpr ⟨hr, (pyIn_iff g (rowGetD r "Group" "")).mpr hsub⟩

/-- C10 witness record: its group is "Medic 10". -/
def w10 : Row :=
  [("Group", "Medic 10"), ("Name", "X")]

/-- C10 (witness): the "Medic 10" record participates in the entries of both
the "Medic 1" and the "Medic 10" group labels. -/
theorem C10_group_substring_witness :
    w10 ∈ entriesFor [w10] "Medic 1" ∧ w10 ∈ entriesFor [w10] "Medic 10" :=
  ⟨C10_group_substring [w10] "Medic 1" w10 (by simp) ⟨[], ['0'], rfl⟩,
   C10_group_substring [w10] "Medic 10" w10 (by simp) ⟨[], [], rfl⟩⟩

/-! Totality of the row builder under bounded occupancy (claim C1). -/

theorem wf_fields {r : Row} (h : wellFormedB r = true) :
    (rowGet r "Group").isSome = true ∧ (rowGet r "Shift").isSome = true ∧
    (rowGet r "Name").isSome = true ∧ (rowGet r "From").isSome = true ∧
    (rowGet r "Through").isSome = true := by
  simp only [wellFormedB, Bool.and_eq_true] at h
  tauto

theorem wellFormedB_rowSet_group {r : Row} (v : String) (h : wellFormedB r = true) :
    wellFormedB (rowSet r "Group" v) = true := by
  rcases wf_fields h with ⟨_, hS, hN, hF, hT⟩
  simp only [wellFormedB, Bool.and_eq_true, rowGet_rowSet_self,
    rowGet_rowSet_ne r "Group" v "Shift" (by decide),
    rowGet_rowSet_ne r "Group" v "Name" (by decide),
    rowGet_rowSet_ne r "Group" v "From" (by decide),
    rowGet_rowSet_ne r "Group" v "Through" (by decide)]
  exact ⟨⟨⟨⟨rfl, hS⟩, hN⟩, hF⟩, hT⟩

theorem wellFormedB_truncate {data : List Row} (h : data.all wellFormedB = true) :
    (truncate_group_values data).all wellFormedB = true := by
  rw [List.all_eq_true] at h ⊢
  intro r' hr'
  rcases List.mem_map.mp hr' with ⟨r, hr, hmap⟩
  subst hmap
  cases hG : rowGet r "Group" with
  | none => simpa [truncate_group_values, hG] using h r hr
  | some g =>
    by_cases hp : (strSplitSlash g).length > 1
    · simpa [truncate_group_values, hG, hp] using
        wellFormedB_rowSet_group (strTrim ((strSplitSlash g).getLastD "")) (h r hr)
    · simpa [truncate_group_values, hG, hp] using h r hr

theorem all_filter_of_all {p q : α → Bool} {l : List α} (h : l.all p = true) :
    (l.filter q).all p = true := by
  rw [List.all_eq_true] at h ⊢
  intro x hx
  exact h x (List.mem_filter.mp hx).1

theorem medicSide_ok {entries : List Row} (h : entries.all wellFormedB = true) :
    ∃ row, medicSide entries = .ok row := by
  cases entries with
  | nil => exact ⟨_, rfl⟩
  | cons e1 rest1 =>
    simp only [List.all_cons, Bool.and_eq_true] at h
    rcases wf_fields h.1 with ⟨hG1, hS1, hN1, _, _⟩
    cases rest1 with
    | nil =>
      exact ⟨_, by simp only [medicSide, rowItem_ok hS1, rowItem_ok hG1, rowItem_ok hN1]; rfl⟩
    | cons e2 rest2 =>
      simp only [List.all_cons, Bool.and_eq_true] at h
      rcases wf_fields h.2.1 with ⟨_, _, hN2, _, _⟩
      cases rest2 with
      | nil =>
        exact ⟨_, by simp only [medicSide, rowItem_ok hS1, rowItem_ok hG1, rowItem_ok hN1,
          rowItem_ok hN2]; rfl⟩
      | cons e3 rest3 =>
        simp only [List.all_cons, Bool.and_eq_true] at h
        rcases wf_fields h.2.2.1 with ⟨_, _, hN3, _, _⟩
        exact ⟨_, by simp only [medicSide, rowItem_ok hS1, rowItem_ok hG1, rowItem_ok hN1,
          rowItem_ok hN2, rowItem_ok hN3]; rfl⟩

theorem perRecordRows_ok {entries : List Row} (h : entries.all wellFormedB = true) :
    ∃ rs, perRecordRows entries = .ok rs := by
  induction entries with
  | nil => exact ⟨[], rfl⟩
  | cons e rest ih =>
    simp only [List.all_cons, Bool.and_eq_true] at h
    rcases ih h.2 with ⟨rs, hrs⟩
    rcases wf_fields h.1 with ⟨hG, _, hN, hF, hT⟩
    exact ⟨_, by simp only [perRecordRows, rowItem_ok hF, rowItem_ok hT, rowItem_ok hG,
      rowItem_ok hN, hrs]; rfl⟩

theorem assistSide_ok {entries : List Row} (side : String) (old : Option (List String))
    (h : entries.all wellFormedB = true) (hlen : entries.length ≤ 1) :
    ∃ row, assistSide side entries old = .ok (some row) := by
  cases entries with
  | nil => exact ⟨_, rfl⟩
  | cons e rest =>
    cases rest with
    | nil =>
      simp only [List.all_cons, Bool.and_eq_true] at h
      rcases wf_fields h.1 with ⟨_, hS, hN, _, _⟩
      exact ⟨_, by simp only [assistSide, rowItem_ok hS, rowItem_ok hN]; rfl⟩
    | cons e2 r2 => simp at hlen

theorem districtSide_ok {entries : List Row} (old : Option (List String))
    (h : entries.all wellFormedB = true) (hlen : entries.length ≤ 1) :
    ∃ row, districtSide entries old = .ok (some row) := by
  cases entries with
  | nil => exact ⟨_, rfl⟩
  | cons e rest =>
    cases rest with
    | nil =>
      simp only [List.all_cons, Bool.and_eq_true] at h
      rcases wf_fields h.1 with ⟨hG, hS, hN, _, _⟩
      exact ⟨_, by simp only [districtSide, rowItem_ok hS, rowItem_ok hG, rowItem_ok hN]; rfl⟩
    | cons e2 r2 => simp at hlen

/-- Bounded occupancy for one group label: if the label falls in the
assistant or district-chief category, each shift side holds at most one
record. -/
def sideCapB (data : List Row) (g : String) : Bool :=
  !(pyIn "On-Duty" g || (pyIn "District" g && !(pyIn "EMS" g))) ||
    (decide ((shiftSide "AM" (entriesFor data g)).length ≤ 1) &&
     decide ((shiftSide "PM" (entriesFor data g)).length ≤ 1))

theorem processGroup_ok (data : List Row) (g : String) (s : BState)
    (hwf : data.all wellFormedB = true) (hcap : sideCapB data g = true) :
    ∃ s', processGroup data g s = .ok s' := by
  have hwfe : (entriesFor data g).all wellFormedB = true := all_filter_of_all hwf
  have hwfAM : (shiftSide "AM" (entriesFor data g)).all wellFormedB = true :=
    all_filter_of_all hwfe
  have hwfPM : (shiftSide "PM" (entriesFor data g)).all wellFormedB = true :=
    all_filter_of_all hwfe
  rw [processGroup]
  by_cases hmed : (pyIn "Medic" g && !(pyIn "73" g)) = true
  · rw [if_pos hmed]
    rcases medicSide_ok hwfAM with ⟨am, ham⟩
    rcases medicSide_ok hwfPM with ⟨pm, hpm⟩
    simp only [ham, hpm]
    by_cases hae : allEmpty (am ++ pm) = true
    · rw [if_pos hae]; exact ⟨_, rfl⟩
    · rw [if_neg hae]; exact ⟨_, rfl⟩
  · rw [if_neg hmed]
    by_cases hasst : pyIn "On-Duty" g = true
    · rw [if_pos hasst]
      have hlens : (shiftSide "AM" (entriesFor data g)).length ≤ 1 ∧
          (shiftSide "PM" (entriesFor data g)).length ≤ 1 := by
        rw [sideCapB, hasst] at hcap
        simpa using hcap
      rcases assistSide_ok "AM" s.amAss hwfAM hlens.1 with ⟨am, ham⟩
      rcases assistSide_ok "PM" s.pmAss hwfPM hlens.2 with ⟨pm, hpm⟩
      simp only [ham, hpm]
      by_cases hae : allEmpty (am ++ pm) = true
      · rw [if_pos hae]; exact ⟨_, rfl⟩
      · rw [if_neg hae]; exact ⟨_, rfl⟩
    · rw [if_neg hasst]
      by_cases hdist : (pyIn "District" g && !(pyIn "EMS" g)) = true
      · rw [if_pos hdist]
        have hlens : (shiftSide "AM" (entriesFor data g)).length ≤ 1 ∧
            (shiftSide "PM" (entriesFor data g)).length ≤ 1 := by
          rw [sideCapB, hdist] at hcap
          simpa using hcap
        rcases districtSide_ok s.amDist hwfAM hlens.1 with ⟨am, ham⟩
        rcases districtSide_ok s.pmDist hwfPM hlens.2 with ⟨pm, hpm⟩
        simp only [ham, hpm]
        by_cases hae : allEmpty (am ++ pm) = true
        · rw [if_pos hae]; exact ⟨_, rfl⟩
        · rw [if_neg hae]; exact ⟨_, rfl⟩
      · rw [if_neg hdist]
        rcases perRecordRows_ok hwfe with ⟨rs, hrs⟩
        by_cases htam : pyIn "Travelers AM" g = true
        · rw [if_pos htam]
          simp only [hrs]
          exact ⟨_, rfl⟩
        · rw [if_neg htam]
          by_cases htpm : pyIn "Travelers PM" g = true
          · rw [if_pos htpm]
            simp only [hrs]
            exact ⟨_, rfl⟩
          · rw [if_neg htpm]
            simp only [hrs]
            exact ⟨_, rfl⟩

theorem buildLoop_ok (data : List Row) (hwf : data.all wellFormedB = true) :
    ∀ (gs : List String) (s : BState), (∀ g ∈ gs, sideCapB data g = true) →
      ∃ s', buildLoop data s gs = .ok s' := by
  intro gs
  induction gs with
  | nil =>
    intro s _
    exact ⟨s, rfl⟩
  | cons g gs' ih =>
    intro s hcap
    rcases processGroup_ok data g s hwf (hcap g (by simp)) with ⟨s1, h1⟩
    rcases ih s1 (fun g' hg' => hcap g' (by simp [hg'])) with ⟨s2, h2⟩
    refine ⟨s2, ?_⟩
    rw [buildLoop]
    simp only [h1]
    exact h2

/-- C1 counterexample input: a well-formed record sequence whose single
assistant group has two AM occupants. -/
def c1data : List Row :=
  [[("Name", "A"), ("Code", "STWEP"), ("From", "06:00"), ("Through", "18:00"),
    ("Group", "On-Duty Asst"), ("Shift", "AM")],
   [("Name", "B"), ("Code", "STWEP"), ("From", "06:00"), ("Through", "18:00"),
    ("Group", "On-Duty Asst"), ("Shift", "AM")]]

/-- C1 (counterexample): on a well-formed input whose assistant group has two
AM occupants, row building does not terminate normally — it stops with the
unbound-variable error of the never-assigned `AMASSrow`, instead of using
the first match. -/
theorem C1_counterexample :
    c1data.all wellFormedB = true ∧
    create_ouput_rows c1data = .error "UnboundLocalError: AMASSrow" :=
  ⟨rfl, rfl⟩

/-- C1 (amended): for every well-formed input record sequence in which each
assistant or district-chief group label has at most one occupant per shift
side, row building terminates normally with a complete row set; zero
occupants degrade to empty-name placeholders. (Two or more occupants on such
a side leave the side's row variable unassigned, which is an error, not a
first-match choice.) -/
theorem C1_rowbuild_total (data : List Row)
    (hwf : data.all wellFormedB = true)
    (hcap : (find_unique_lables (truncate_group_values data) "Group").all
        (sideCapB (truncate_group_values data)) = true) :
    (create_ouput_rows data).toOption.isSome = true := by
  have hwf' := wellFormedB_truncate hwf
  have hcap' : ∀ g ∈ sortedLabelsOf (truncate_group_values data),
      sideCapB (truncate_group_values data) g = true := by
    intro g hg
    rw [sortedLabelsOf, mem_sortOrd] at hg
    exact List.all_eq_true.mp hcap g hg
  rcases buildLoop_ok (truncate_group_values data) hwf'
      (sortedLabelsOf (truncate_group_values data)) initState hcap' with ⟨s, hs⟩
  rw [create_ouput_rows, hs]
  rfl

/-- C1 witness input: an assistant group with one AM and one PM occupant and
a medic group with two AM occupants. -/
def wd1 : List Row :=
  [[("Name", "A"), ("Code", "STWEP"), ("From", "06:00"), ("Through", "18:00"),
    ("Group", "On-Duty Asst"), ("Shift", "AM")],
   [("Name", "B"), ("Code", "STWEP"), ("From", "18:00"), ("Through", "06:00"),
    ("Group", "On-Duty Asst"), ("Shift", "PM")],
   [("Name", "C"), ("Code", "STWEP"), ("From", "06:00"), ("Through", "18:00"),
    ("Group", "Medic 10"), ("Shift", "AM")],
   [("Name", "D"), ("Code", "STWEP"), ("From", "06:00"), ("Through", "18:00"),
    ("Group", "Medic 10"), ("Shift", "AM")]]

/-- C1 (amended, witness): the builder succeeds on the concrete well-formed
input `wd1`. -/
theorem C1_rowbuild_total_witness :
    (create_ouput_rows wd1).toOption.isSome = true :=
  C1_rowbuild_total wd1 rfl rfl

/-! Width of the assistant and district rows (claim C3). -/

/-- Invariant for claim C3 along the group loop: once the assistant flag is
set the assistant row is eight cells wide, every stored assistant sub-row is
three cells wide and carries the literal "ASST" cell, the stored district
sub-rows are three cells wide, and every emitted district row is eight cells
wide. -/
def c3Inv (s : BState) : Prop :=
  (s.asstFound = true → s.asstRow.length = 8) ∧
  (∀ r, s.amAss = some r → r.length = 3 ∧ "ASST" ∈ r) ∧
  (∀ r, s.pmAss = some r → r.length = 3 ∧ "ASST" ∈ r) ∧
  (∀ r, s.amDist = some r → r.length = 3) ∧
  (∀ r, s.pmDist = some r → r.length = 3) ∧
  s.distRows.all (fun r => r.length == 8) = true

theorem districtSide_shape {entries : List Row} {old o : Option (List String)}
    (h : districtSide entries old = .ok o) :
    o = old ∨ o = some ["", "", ""] ∨ ∃ sh gr nm, o = some [sh, gr, nm] := by
  cases entries with
  | nil =>
    injection h with h
    exact Or.inr (Or.inl h.symm)
  | cons e rest =>
    cases rest with
    | cons e2 r2 =>
      injection h with h
      exact Or.inl h.symm
    | nil =>
      rw [districtSide] at h
      cases h1 : rowItem e "Shift" <;> cases h2 : rowItem e "Group" <;>
        cases h3 : rowItem e "Name" <;> rw [h1, h2, h3] at h <;> cases h
      exact Or.inr (Or.inr ⟨_, _, _, rfl⟩)

theorem districtSide_len {entries : List Row} {old o : Option (List String)}
    (h : districtSide entries old = .ok o)
    (hold : ∀ r, old = some r → r.length = 3) :
    ∀ r, o = some r → r.length = 3 := by
  intro r hr
  rcases districtSide_shape h with ho | ho | ⟨sh, gr, nm, ho⟩
  · exact hold r (ho ▸ hr)
  · rw [ho] at hr
    injection hr with hr
    rw [← hr]
    rfl
  · rw [ho] at hr
    injection hr with hr
    rw [← hr]
    rfl

theorem assistSide_shape {side : String} {entries : List Row} {old o : Option (List String)}
    (h : assistSide side entries old = .ok o) :
    o = old ∨ ∃ sh nm, o = some [sh, "ASST", nm] := by
  cases entries with
  | nil =>
    injection h with h
    exact Or.inr ⟨side, "", h.symm⟩
  | cons e rest =>
    cases rest with
    | cons e2 r2 =>
      injection h with h
      exact Or.inl h.symm
    | nil =>
      rw [assistSide] at h
      cases h1 : rowItem e "Shift" <;> cases h2 : rowItem e "Name" <;>
        rw [h1, h2] at h <;> cases h
      exact Or.inr ⟨_, _, rfl⟩

theorem assistSide_mem {side : String} {entries : List Row} {old o : Option (List String)}
    (h : assistSide side entries old = .ok o)
    (hold : ∀ r, old = some r → r.length = 3 ∧ "ASST" ∈ r) :
    ∀ r, o = some r → r.length = 3 ∧ "ASST" ∈ r := by
  intro r hr
  rcases assistSide_shape h with ho | ⟨sh, nm, ho⟩
  · exact hold r (ho ▸ hr)
  · rw [ho] at hr
    injection hr with hr
    rw [← hr]
    exact ⟨rfl, by simp⟩

theorem allEmpty_false_of_mem {l : List String} {x : String} (hx : x ∈ l) (hne : x ≠ "") :
    allEmpty l = false := by
  cases hae : allEmpty l with
  | false => rfl
  | true =>
    exfalso
    rw [allEmpty] at hae
    have := List.all_eq_true.mp hae x hx
    exact hne (by simpa using this)

theorem processGroup_c3 {data : List Row} {g : String} {s s' : BState}
    (h : processGroup data g s = .ok s') (hinv : c3Inv s) :
    c3Inv s' ∧ (pyIn "On-Duty" g = false → s'.asstFound = s.asstFound) := by
  rcases hinv with ⟨hfound, hamA, hpmA, hamd, hpmd, hdr⟩
  rw [processGroup] at h
  by_cases hmed : (pyIn "Medic" g && !(pyIn "73" g)) = true
  · rw [if_pos hmed] at h
    cases ham : medicSide (shiftSide "AM" (entriesFor data g)) with
    | error m =>
      cases hpm : medicSide (shiftSide "PM" (entriesFor data g)) with
      | error m2 => rw [ham, hpm] at h; cases h
      | ok pm => rw [ham, hpm] at h; cases h
    | ok am =>
      cases hpm : medicSide (shiftSide "PM" (entriesFor data g)) with
      | error m2 => rw [ham, hpm] at h; cases h
      | ok pm =>
        rw [ham, hpm] at h
        dsimp only at h
        by_cases hae : allEmpty (am ++ pm) = true
        · rw [if_pos hae] at h
          injection h with h
          rw [← h]
          exact ⟨⟨hfound, hamA, hpmA, hamd, hpmd, hdr⟩, fun _ => rfl⟩
        · rw [if_neg hae] at h
          injection h with h
          rw [← h]
          exact ⟨⟨hfound, hamA, hpmA, hamd, hpmd, hdr⟩, fun _ => rfl⟩
  · rw [if_neg hmed] at h
    by_cases hasst : pyIn "On-Duty" g = true
    · rw [if_pos hasst] at h
      cases ham : assistSide "AM" (shiftSide "AM" (entriesFor data g)) s.amAss with
      | error m =>
        cases hpm : assistSide "PM" (shiftSide "PM" (entriesFor data g)) s.pmAss with
        | error m2 => rw [ham, hpm] at h; cases h
        | ok pmO => rw [ham, hpm] at h; cases h
      | ok amO =>
        cases hpm : assistSide "PM" (shiftSide "PM" (entriesFor data g)) s.pmAss with
        | error m2 => rw [ham, hpm] at h; cases h
        | ok pmO =>
          rw [ham, hpm] at h
          cases amO with
          | none => cases h
          | some am =>
            cases pmO with
            | none => cases h
            | some pm =>
              dsimp only at h
              have hamP : am.length = 3 ∧ "ASST" ∈ am := assistSide_mem ham hamA am rfl
              have hpmP : pm.length = 3 ∧ "ASST" ∈ pm := assistSide_mem hpm hpmA pm rfl
              have hae : allEmpty (am ++ pm) = false :=
                allEmpty_false_of_mem (List.mem_append_left pm hamP.2) (by decide)
              rw [if_neg (by simp [hae])] at h
              injection h with h
              rw [← h]
              refine ⟨⟨?_, ?_, ?_, hamd, hpmd, hdr⟩, ?_⟩
              · intro _
                simp [List.length_append, hamP.1, hpmP.1]
              · intro r hr
                injection hr with hr
                rw [← hr]
                exact hamP
              · intro r hr
                injection hr with hr
                rw [← hr]
                exact hpmP
              · intro hc
                rw [hasst] at hc
                cases hc
    · rw [if_neg hasst] at h
      by_cases hdist : (pyIn "District" g && !(pyIn "EMS" g)) = true
      · rw [if_pos hdist] at h
        cases ham : districtSide (shiftSide "AM" (entriesFor data g)) s.amDist with
        | error m =>
          cases hpm : districtSide (shiftSide "PM" (entriesFor data g)) s.pmDist with
          | error m2 => rw [ham, hpm] at h; cases h
          | ok pmO => rw [ham, hpm] at h; cases h
        | ok amO =>
          cases hpm : districtSide (shiftSide "PM" (entriesFor data g)) s.pmDist with
          | error m2 => rw [ham, hpm] at h; cases h
          | ok pmO =>
            rw [ham, hpm] at h
            cases amO with
            | none => cases h
            | some am =>
              cases pmO with
              | none => cases h
              | some pm =>
                dsimp only at h
                have ham3 : am.length = 3 := districtSide_len ham hamd am rfl
                have hpm3 : pm.length = 3 := districtSide_len hpm hpmd pm rfl
                by_cases hae : allEmpty (am ++ pm) = true
                · rw [if_pos hae] at h
                  injection h with h
                  rw [← h]
                  refine ⟨⟨hfound, hamA, hpmA, ?_, ?_, hdr⟩, fun _ => rfl⟩
                  · intro r hr
                    injection hr with hr
                    rw [← hr]
                    exact ham3
                  · intro r hr
                    injection hr with hr
                    rw [← hr]
                    exact hpm3
                · rw [if_neg hae] at h
                  injection h with h
                  rw [← h]
                  refine ⟨⟨hfound, hamA, hpmA, ?_, ?_, ?_⟩, fun _ => rfl⟩
                  · intro r hr
                    injection hr with hr
                    rw [← hr]
                    exact ham3
                  · intro r hr
                    injection hr with hr
                    rw [← hr]
                    exact hpm3
                  · simp only [List.all_append, Bool.and_eq_true]
                    refine ⟨hdr, ?_⟩
                    simp [ham3, hpm3]
      · rw [if_neg hdist] at h
        by_cases htam : pyIn "Travelers AM" g = true
        · rw [if_pos htam] at h
          cases hrs : perRecordRows (entriesFor data g) with
          | error m => rw [hrs] at h; cases h
          | ok rs =>
            rw [hrs] at h
            injection h with h
            rw [← h]
            exact ⟨⟨hfound, hamA, hpmA, hamd, hpmd, hdr⟩, fun _ => rfl⟩
        · rw [if_neg htam] at h
          by_cases htpm : pyIn "Travelers PM" g = true
          · rw [if_pos htpm] at h
            cases hrs : perRecordRows (entriesFor data g) with
            | error m => rw [hrs] at h; cases h
            | ok rs =>
              rw [hrs] at h
              injection h with h
              rw [← h]
              exact ⟨⟨hfound, hamA, hpmA, hamd, hpmd, hdr⟩, fun _ => rfl⟩
          · rw [if_neg htpm] at h
            cases hrs : perRecordRows (entriesFor data g) with
            | error m => rw [hrs] at h; cases h
            | ok rs =>
              rw [hrs] at h
              injection h with h
              rw [← h]
              exact ⟨⟨hfound, hamA, hpmA, hamd, hpmd, hdr⟩, fun _ => rfl⟩

theorem buildLoop_c3 {data : List Row} : ∀ {gs : List String} {s s' : BState},
    buildLoop data s gs = .ok s' → c3Inv s →
    c3Inv s' ∧ ((∀ g ∈ gs, pyIn "On-Duty" g = false) → s'.asstFound = s.asstFound) := by
  intro gs
  induction gs with
  | nil =>
    intro s s' h hinv
    rw [buildLoop] at h
    injection h with h
    rw [← h]
    exact ⟨hinv, fun _ => rfl⟩
  | cons g gs' ih =>
    intro s s' h hinv
    rw [buildLoop] at h
    cases hp : processGroup data g s with
    | error m => rw [hp] at h; cases h
    | ok s1 =>
      rw [hp] at h
      rcases processGroup_c3 hp hinv with ⟨hinv1, hf1⟩
      rcases ih h hinv1 with ⟨hinv2, hf2⟩
      refine ⟨hinv2, ?_⟩
      intro hall
      rw [hf2 (fun g' hg' => hall g' (List.mem_cons_of_mem _ hg'))]
      exact hf1 (hall g (List.mem_cons_self g gs'))

/-- C3 (counterexample): with no assistant group anywhere (the empty
dataset), the default assistant row emitted is the eight-cell
`["AM","ASST","","","","PM","ASST",""]`, not the claimed six-cell row. -/
theorem C3_counterexample :
    (create_ouput_rows []).toOption.map (fun b => b.asstRow) =
      some ["AM", "ASST", "", "", "", "PM", "ASST", ""] ∧
    (create_ouput_rows []).toOption.map (fun b => b.asstRow) ≠
      some ["AM", "ASST", "", "PM", "ASST", ""] ∧
    (create_ouput_rows []).toOption.map (fun b => b.asstRow.length) = some 8 :=
  ⟨rfl, by decide, rfl⟩

/-- C3 (amended): for every input on which the row builder succeeds, the
assistant row and every district-chief row are eight cells wide — one
three-cell `[shift, group-or-ASST, name]` sub-row per shift side with a
two-cell empty spacer between the halves — and when no group label contains
"On-Duty" the default assistant row emitted is exactly
`["AM","ASST","","","","PM","ASST",""]`. -/
theorem C3_asst_dist_width (data : List Row) (b : Built)
    (hok : create_ouput_rows data = .ok b) :
    b.asstRow.length = 8 ∧
    b.distRows.all (fun r => r.length == 8) = true ∧
    ((find_unique_lables (truncate_group_values data) "Group").all
        (fun g => !(pyIn "On-Duty" g)) = true →
      b.asstRow = ["AM", "ASST", "", "", "", "PM", "ASST", ""]) := by
  rcases create_ouput_rows_ok hok with ⟨s, hs, hb⟩
  have hinv0 : c3Inv initState := by
    refine ⟨?_, ?_, ?_, ?_, ?_, rfl⟩
    · intro hf
      cases hf
    all_goals intro r hr; cases hr
  rcases buildLoop_c3 hs hinv0 with ⟨⟨h8, _, _, _, _, hdist⟩, hfound⟩
  subst hb
  refine ⟨?_, ?_, ?_⟩
  · cases hf : s.asstFound with
    | true => simpa [finishBuild, hf] using h8 hf
    | false => simp [finishBuild, hf]
  · simpa [finishBuild] using hdist
  · intro hno
    have hno' : ∀ g ∈ sortedLabelsOf (truncate_group_values data), pyIn "On-Duty" g = false := by
      intro g hg
      rw [sortedLabelsOf, mem_sortOrd] at hg
      simpa using List.all_eq_true.mp hno g hg
    have hf : s.asstFound = initState.asstFound := hfound hno'
    simp only [initState] at hf
    simp [finishBuild, hf]

/-- C3 witness input: an assistant group with one occupant per shift side,
and a district-chief record on the PM side. -/
def wd3 : List Row :=
  [[("Name", "A"), ("Code", "STWEP"), ("From", "06:00"), ("Through", "18:00"),
    ("Group", "On-Duty Asst"), ("Shift", "AM")],
   [("Name", "B"), ("Code", "STWEP"), ("From", "18:00"), ("Through", "06:00"),
    ("Group", "On-Duty Asst"), ("Shift", "PM")],
   [("Name", "C"), ("Code", "STWEP"), ("From", "18:00"), ("Through", "06:00"),
    ("Group", "District 5"), ("Shift", "PM")]]

/-- The concrete builder output on `wd3`: a built (non-default) assistant
row and one district row, both eight cells wide. -/
def wb3 : Built :=
  { asstRow := ["AM", "ASST", "A", "", "", "PM", "ASST", "B"], medicRows := [],
    distRows := [["", "", "", "", "", "PM", "District 5", "C"]],
    travelAMRows := [], travelPMRows := [], specialRows := [],
    logs := ["No Chief on District 5 PM"] }

/-- C3 (amended, witness): the widths hold on the concrete run over `wd3`,
which builds a real assistant row and a real district row. -/
theorem C3_asst_dist_width_witness :
    wb3.asstRow.length = 8 ∧ wb3.distRows.all (fun r => r.length == 8) = true :=
  ⟨(C3_asst_dist_width wd3 wb3 rfl).1, (C3_asst_dist_width wd3 wb3 rfl).2.1⟩

/-! Medic arity clamping (claim C8). -/

theorem medicFields_parts {r : Row} (h : medicFieldsB r = true) :
    (rowGet r "Shift").isSome = true ∧ (rowGet r "Group").isSome = true ∧
    (rowGet r "Name").isSome = true := by
  simp only [medicFieldsB, Bool.and_eq_true] at h
  tauto

/-- C8: a medic shift-side sub-row equals its specification — shift and
group of the first record followed by the subset's names in original order,
clamped to the first three and padded with empty strings — and more than
three occupants record the anomaly note, not an error. -/
theorem C8_medic_arity (entries : List Row) (g side : String)
    (h : entries.all medicFieldsB = true) :
    medicSide entries = .ok (medicSideSpec entries) ∧
    (3 < entries.length →
      medicLog g side entries.length = ["More than 3 Employees on " ++ g ++ " " ++ side]) := by
  constructor
  · cases entries with
    | nil => rfl
    | cons e1 rest1 =>
      simp only [List.all_cons, Bool.and_eq_true] at h
      rcases medicFields_parts h.1 with ⟨hS1, hG1, hN1⟩
      cases rest1 with
      | nil =>
        simp [medicSide, medicSideSpec, padTo3, rowGetD,
          rowItem_ok hS1, rowItem_ok hG1, rowItem_ok hN1]
      | cons e2 rest2 =>
        simp only [List.all_cons, Bool.and_eq_true] at h
        rcases medicFields_parts h.2.1 with ⟨_, _, hN2⟩
        cases rest2 with
        | nil =>
          simp [medicSide, medicSideSpec, padTo3, rowGetD,
            rowItem_ok hS1, rowItem_ok hG1, rowItem_ok hN1, rowItem_ok hN2]
        | cons e3 rest3 =>
          simp only [List.all_cons, Bool.and_eq_true] at h
          rcases medicFields_parts h.2.2.1 with ⟨_, _, hN3⟩
          have hz : 3 - ((e1 :: e2 :: e3 :: rest3).map (fun r => rowGetD r "Name" "")).length = 0 := by
            simp
          simp [medicSide, medicSideSpec, padTo3, rowGetD, hz,
            rowItem_ok hS1, rowItem_ok hG1, rowItem_ok hN1, rowItem_ok hN2, rowItem_ok hN3]
  · intro h3
    rw [medicLog, if_pos h3]

/-- C8 witness input: a medic shift subset with five occupants. -/
def w8 : List Row :=
  [[("Shift", "AM"), ("Group", "Medic 9"), ("Name", "n1")],
   [("Shift", "AM"), ("Group", "Medic 9"), ("Name", "n2")],
   [("Shift", "AM"), ("Group", "Medic 9"), ("Name", "n3")],
   [("Shift", "AM"), ("Group", "Medic 9"), ("Name", "n4")],
   [("Shift", "AM"), ("Group", "Medic 9"), ("Name", "n5")]]

/-- C8 (witness): with five occupants the sub-row uses the first three names
and the anomaly note is recorded. -/
theorem C8_medic_arity_witness :
    medicSide w8 = .ok (medicSideSpec w8) ∧
    medicLog "Medic 9" "AM" w8.length = ["More than 3 Employees on " ++ "Medic 9" ++ " " ++ "AM"] :=
  ⟨(C8_medic_arity w8 "Medic 9" "AM" rfl).1,
   (C8_medic_arity w8 "Medic 9" "AM" rfl).2 (by decide)⟩

end OnDuty
